import Mathlib

/-!
Shallow embedding of `miniredis.py`, an in-memory multi-database key-value
store.  Python dictionaries are modelled as association lists, `deque` values
as Lean lists (with `appendleft` = cons and `append` = snoc), and a Python
exception escaping a handler is modelled as `none` in an `Option` result.
-/

/-- A stored value: `miniredis` tables hold Python `str` values (from `SET`,
`LPUSH`, ...), Python `int` values (written by `handle_incrby`), or `deque`
values (lists). -/
inductive RValue where
  | VStr : String → RValue
  | VInt : Int → RValue
  | VList : List String → RValue
deriving DecidableEq

/-- One database: the Python dict `client.table`. -/
abbrev Table := List (String × RValue)

/-- The keyspace: the Python dict `self.tables`, indexed by database number. -/
abbrev Tables := List (Nat × Table)

/-- A handler's return value, as consumed by `dump`:  Python `True`/`False`,
`int`, `str`, `list`, the `EMPTY_SCALAR` / `EMPTY_LIST` sentinels, a
`RedisError` or a plain `RedisMessage`. -/
inductive HResult where
  | bool : Bool → HResult
  | int : Int → HResult
  | bulk : String → HResult
  | multi : List String → HResult
  | emptyScalar : HResult
  | emptyList : HResult
  | err : String → HResult
  | msg : String → HResult
deriving DecidableEq

/-- `BAD_VALUE = RedisError('Operation against a key holding the wrong kind of value')`. -/
def badValue : String := "Operation against a key holding the wrong kind of value"

/-- Python dict lookup `d.get(k, None)` on an association list. -/
def alookup {α β : Type} [DecidableEq α] : List (α × β) → α → Option β
  | [], _ => none
  | (a, b) :: t, x => if a = x then some b else alookup t x

/-- Python dict assignment `d[k] = v` on an association list: replace in
place, or append a fresh binding. -/
def aset {α β : Type} [DecidableEq α] : List (α × β) → α → β → List (α × β)
  | [], x, y => [(x, y)]
  | (a, b) :: t, x, y => if a = x then (x, y) :: t else (a, b) :: aset t x y

/-- Characters stripped by Python's `int(str)` conversion. -/
def pyWhitespace (c : Char) : Bool :=
  c = ' ' || c = '\t' || c = '\n' || c = '\r' || c = Char.ofNat 11 || c = Char.ofNat 12

/-- Strip leading and trailing whitespace, as `int(str)` does. -/
def pyStrip (cs : List Char) : List Char :=
  ((cs.dropWhile pyWhitespace).reverse.dropWhile pyWhitespace).reverse

/-- Decimal value of a digit string. -/
def digitsVal (cs : List Char) : Nat :=
  cs.foldl (fun a c => 10 * a + (c.toNat - 48)) 0

/-- `int(str)` after stripping: optional sign followed by one or more
decimal digits; anything else raises `ValueError` (`none`). -/
def parsePyIntCore : List Char → Option Int
  | '+' :: rest =>
    if !rest.isEmpty && rest.all Char.isDigit then some (digitsVal rest) else none
  | '-' :: rest =>
    if !rest.isEmpty && rest.all Char.isDigit then some (-(digitsVal rest : Int)) else none
  | rest =>
    if !rest.isEmpty && rest.all Char.isDigit then some (digitsVal rest) else none

/-- Python `int(s)` for a string `s`: `some` the parsed integer, `none` for
`ValueError`. -/
def parsePyInt (s : String) : Option Int := parsePyIntCore (pyStrip s.toList)

/-- A Python value flowing through a handler's argument list: a byte string
from the wire, an `int` literal, the `self` instance, or the client object. -/
inductive PyVal where
  | vstr : String → PyVal
  | vint : Int → PyVal
  | vself : PyVal
  | vclient : PyVal
deriving DecidableEq

/-- Python `int(x)` on an argument: identity on `int`, string parse on `str`,
`TypeError` (`none`) otherwise. -/
def pyIntOfArg : PyVal → Option Int
  | .vint n => some n
  | .vstr s => parsePyInt s
  | _ => none

/-- Python `int(x)` on a stored value: identity on `int`, string parse on
`str`, `TypeError` (`none`) on a `deque`. -/
def pyIntOfValue : RValue → Option Int
  | .VInt n => some n
  | .VStr s => parsePyInt s
  | .VList _ => none

/-- Python unary minus: negates an `int`, raises `TypeError` (`none`) on a
byte string or any other object. -/
def pyNeg : PyVal → Option PyVal
  | .vint n => some (.vint (-n))
  | _ => none

-- HANDLERS (operating on the connection's current table; logging omitted)

/-- `handle_get`: `data = client.table.get(key, None)`; a `deque` is
`BAD_VALUE`; a present value is returned as `str(data)`; absence is
`EMPTY_SCALAR`. -/
def handle_get (t : Table) (key : String) : HResult × Table :=
  match alookup t key with
  | some (.VList _) => (.err badValue, t)
  | some (.VStr s) => (.bulk s, t)
  | some (.VInt n) => (.bulk (toString n), t)
  | none => (.emptyScalar, t)

/-- `handle_set`: `client.table[key] = data; return True`. -/
def handle_set (t : Table) (key data : String) : HResult × Table :=
  (.bool true, aset t key (.VStr data))

/-- `handle_incrby`: `try: client.table[key] = int(client.table[key]);
client.table[key] += int(by)` with `except (KeyError, TypeError, ValueError):
client.table[key] = 1`; returns `client.table[key]`.  A `KeyError` (absent
key), `TypeError` (`deque` value or non-numeric `by`) or `ValueError`
(non-numeric string) all land in the except branch, which stores the Python
int `1`. -/
def handle_incrby (t : Table) (key : String) (byArg : PyVal) : HResult × Table :=
  match (alookup t key).bind pyIntOfValue with
  | some p =>
    match pyIntOfArg byArg with
    | some n => (.int (p + n), aset t key (.VInt (p + n)))
    | none => (.int 1, aset t key (.VInt 1))
  | none => (.int 1, aset t key (.VInt 1))

/-- `handle_incr`: `return self.handle_incrby(client, key, 1)` (the literal
Python int `1`). -/
def handle_incr (t : Table) (key : String) : HResult × Table :=
  handle_incrby t key (.vint 1)

/-- Calling the bound method `handle_incrby` with the positional argument
list `args` (everything after the implicit `self`): its parameters are
`(client, key, by)`, so any other arity raises `TypeError` (`none`). -/
def callHandle_incrby (t : Table) (args : List PyVal) : Option (HResult × Table) :=
  match args with
  | [.vclient, .vstr key, byArg] => some (handle_incrby t key byArg)
  | _ => none

/-- `handle_decrby`: `return self.handle_incrby(self, client, key, -by)`.
Python first evaluates `-by` (a `TypeError` when `by` is the raw byte string
from the wire), then calls `handle_incrby` with four positional arguments —
one more than its parameter list accepts, another `TypeError`. -/
def handle_decrby (t : Table) (key : String) (byArg : PyVal) : Option (HResult × Table) :=
  (pyNeg byArg).bind fun nb => callHandle_incrby t [.vself, .vclient, .vstr key, nb]

/-- Calling the bound method `handle_decrby` with positional argument list
`args`: parameters `(client, key, by)`, other arities raise `TypeError`. -/
def callHandle_decrby (t : Table) (args : List PyVal) : Option (HResult × Table) :=
  match args with
  | [.vclient, .vstr key, byArg] => handle_decrby t key byArg
  | _ => none

/-- `handle_decr`: `return self.handle_decrby(self, client, key, 1)` — four
positional arguments for the three-parameter `handle_decrby`. -/
def handle_decr (t : Table) (key : String) : Option (HResult × Table) :=
  callHandle_decrby t [.vself, .vclient, .vstr key, .vint 1]

/-- `handle_lpush`: create a `deque` if the key is absent, `BAD_VALUE` if the
value is not a `deque`, else `appendleft(data)` and return `True`. -/
def handle_lpush (t : Table) (key data : String) : HResult × Table :=
  match alookup t key with
  | none => (.bool true, aset t key (.VList [data]))
  | some (.VList l) => (.bool true, aset t key (.VList (data :: l)))
  | some _ => (.err badValue, t)

/-- `handle_rpush`: like `handle_lpush` but `append(data)` at the tail. -/
def handle_rpush (t : Table) (key data : String) : HResult × Table :=
  match alookup t key with
  | none => (.bool true, aset t key (.VList [data]))
  | some (.VList l) => (.bool true, aset t key (.VList (l ++ [data])))
  | some _ => (.err badValue, t)

/-- `handle_lpop`: `EMPTY_SCALAR` if the key is absent, `BAD_VALUE` if not a
`deque`, `popleft()` if non-empty, `EMPTY_SCALAR` if empty.  The key is never
deleted. -/
def handle_lpop (t : Table) (key : String) : HResult × Table :=
  match alookup t key with
  | none => (.emptyScalar, t)
  | some (.VList []) => (.emptyScalar, t)
  | some (.VList (x :: xs)) => (.bulk x, aset t key (.VList xs))
  | some _ => (.err badValue, t)

/-- `handle_rpop`: like `handle_lpop` but `pop()` from the tail. -/
def handle_rpop (t : Table) (key : String) : HResult × Table :=
  match alookup t key with
  | none => (.emptyScalar, t)
  | some (.VList []) => (.emptyScalar, t)
  | some (.VList (x :: xs)) =>
    (.bulk ((x :: xs).getLast (List.cons_ne_nil x xs)),
     aset t key (.VList ((x :: xs).dropLast)))
  | some _ => (.err badValue, t)

/-- `handle_llen`: `0` if the key is absent, `BAD_VALUE` if not a `deque`,
else the length. -/
def handle_llen (t : Table) (key : String) : HResult × Table :=
  match alookup t key with
  | none => (.int 0, t)
  | some (.VList l) => (.int l.length, t)
  | some _ => (.err badValue, t)

/-- Python slice index normalisation for `l[low:high]`: a negative index is
offset by the length and clamped below at `0`; a non-negative index is
clamped above at the length. -/
def pySliceIndex (n : Nat) (i : Int) : Nat :=
  if i < 0 then (i + n).toNat else min i.toNat n

/-- Python `l[low:high]` (with `high = none` for `l[low:None]`). -/
def pySlice (l : List String) (low : Int) (high : Option Int) : List String :=
  let lo := pySliceIndex l.length low
  let hi := match high with
    | none => l.length
    | some h => pySliceIndex l.length h
  (l.take hi).drop lo

/-- `handle_lrange`: `if low == 0 and high == -1: high = None`; `EMPTY_LIST`
if the key is absent; `BAD_VALUE` if not a `deque`; else
`list(client.table[key])[low:high]`. -/
def handle_lrange (t : Table) (key : String) (low high : Int) : HResult × Table :=
  let high? : Option Int := if low = 0 ∧ high = -1 then none else some high
  match alookup t key with
  | none => (.emptyList, t)
  | some (.VList l) => (.multi (pySlice l low high?), t)
  | some _ => (.err badValue, t)

-- KEYS pattern matching.  `handle_keys` compiles
-- `re.compile(pattern.replace('*', '.*'))` and keeps the keys on which
-- `r.search(k)` succeeds.  For patterns built from literal characters and
-- `*` (no other regex metacharacters — all the patterns this development
-- uses), that regex is the literal chunks of the pattern separated by `.*`,
-- searched unanchored; `.` matches any character except a newline.

/-- Split a pattern at its `*` characters into literal chunks, mirroring
`pattern.replace('*', '.*')`: the resulting regex is the chunks joined by
`.*`. -/
def splitStar : List Char → List (List Char)
  | [] => [[]]
  | '*' :: t => [] :: splitStar t
  | c :: t =>
    match splitStar t with
    | [] => [[c]]
    | h :: r => (c :: h) :: r

/-- Bounded matcher for `.* c1 .* c2 ... .* cn` against a prefix of `s`: each
chunk must occur in order, with the `.*` gaps crossing no newline.  The fuel
argument bounds the recursion; every call site supplies enough fuel
(`s.length + chunks.length + 1`) for the search to be exhaustive. -/
def restMatchF : Nat → List (List Char) → List Char → Bool
  | 0, _, _ => false
  | _ + 1, [], _ => true
  | f + 1, c :: cs, s =>
    (c.isPrefixOf s && restMatchF f cs (s.drop c.length)) ||
    (match s with
     | [] => false
     | ch :: t => (ch != '\n') && restMatchF f (c :: cs) t)

/-- `.* c1 .* ... .* cn` matches some prefix of `s`. -/
def restMatch (cs : List (List Char)) (s : List Char) : Bool :=
  restMatchF (s.length + cs.length + 1) cs s

/-- The chunk regex matches starting exactly at the head of `s`. -/
def matchAt (cs : List (List Char)) (s : List Char) : Bool :=
  match cs with
  | [] => true
  | c :: rest => c.isPrefixOf s && restMatch rest (s.drop c.length)

/-- Unanchored `r.search`: the chunk regex may match starting at any
position of `s`. -/
def reSearch (cs : List (List Char)) : List Char → Bool
  | [] => matchAt cs []
  | c :: t => matchAt cs (c :: t) || reSearch cs t

/-- `re.search(pattern.replace('*', '.*'), key)` as a Boolean, for
metacharacter-free patterns. -/
def reSearchStr (pat key : String) : Bool :=
  reSearch (splitStar pat.toList) key.toList

/-- `handle_keys`: `[k for k in client.table.keys() if r.search(k)]`. -/
def handle_keys (t : Table) (pat : String) : HResult × Table :=
  (.multi ((t.map Prod.fst).filter (fun k => reSearchStr pat k)), t)

/-- Projection used to state facts about a `multi` reply. -/
def multiOf : HResult → List String
  | .multi l => l
  | _ => []

/-- True exactly on integer replies (used to state that a handler can only
reply an integer). -/
def isIntReply : HResult → Bool
  | .int _ => true
  | _ => false

-- REPLY ENCODER

/-- `dump`: the bytes written for one handler result (each write is followed
by a flush in the source).  `True` → `+OK\r\n`; `False` → nothing;
`EMPTY_SCALAR` → `$-1\r\n`; `EMPTY_LIST` → `*-1\r\n`; an int `n` →
`:<n>\r\n`; a string `s` → `$<len(s)>\r\n<s>\r\n`; a list → `*<len>\r\n`
followed by each element dumped as a string; a `RedisMessage`/`RedisError` →
`str(o)` + `\r\n`. -/
def dump : HResult → String
  | .bool true => "+OK\r\n"
  | .bool false => ""
  | .emptyScalar => "$-1\r\n"
  | .emptyList => "*-1\r\n"
  | .int n => ":" ++ toString n ++ "\r\n"
  | .bulk s => "$" ++ toString s.length ++ "\r\n" ++ s ++ "\r\n"
  | .multi l =>
    "*" ++ toString l.length ++ "\r\n" ++
      String.join (l.map fun s => "$" ++ toString s.length ++ "\r\n" ++ s ++ "\r\n")
  | .err m => "-ERR " ++ m ++ "\r\n"
  | .msg m => "+" ++ m ++ "\r\n"

-- KEYSPACE LEVEL (SELECT and database isolation)

/-- `select`: `if db not in self.tables: self.tables[db] = {}`; the
connection's table reference is rebound to `self.tables[db]`. -/
def selectTables (ts : Tables) (db : Nat) : Tables :=
  match alookup ts db with
  | some _ => ts
  | none => aset ts db []

/-- One connection's view of the server: the shared `self.tables` plus the
connection's selected database number (`client.db`). -/
structure Sys where
  tables : Tables
  cur : Nat
deriving DecidableEq

/-- The dict `client.table` currently referenced by the connection.  (Every
connection selects database 0 on accept, so the selected number is always
present; `[]` is returned in the unreachable missing case.) -/
def curTable (s : Sys) : Table :=
  (alookup s.tables s.cur).getD []

/-- `handle_select` (argument already converted by `int(db)`). -/
def sysSelect (s : Sys) (db : Nat) : Sys :=
  ⟨selectTables s.tables db, db⟩

/-- `handle_set` acting through the connection's table reference: mutating
the aliased dict `client.table` is writing back into `self.tables[db]`. -/
def sysSet (s : Sys) (k v : String) : HResult × Sys :=
  (.bool true, ⟨aset s.tables s.cur ((handle_set (curTable s) k v).2), s.cur⟩)

/-- `handle_get` through the connection's table reference (no mutation). -/
def sysGet (s : Sys) (k : String) : HResult × Sys :=
  ((handle_get (curTable s) k).1, s)

-- CONNECTION MULTIPLEXER (the fragment of run() the claims are about)

/-- The multiplexer state the exception path touches: the keys of
`self.clients`, and the `client` local variable of `run()` — set only by the
accept branch, hence holding the most recently accepted connection (or
nothing, before the first accept). -/
structure MuxState where
  clients : List Nat
  lastAccepted : Option Nat
deriving DecidableEq

/-- The accept branch of `run()`: register the new connection in
`self.clients` and bind the `client` local to it. -/
def muxAccept (s : MuxState) (c : Nat) : MuxState :=
  ⟨s.clients ++ [c], some c⟩

/-- `handle_quit(c)`: socket shutdown and `del self.clients[c.socket]` — a
`KeyError` (`none`) if the connection is no longer registered. -/
def muxQuit (s : MuxState) (c : Nat) : Option MuxState :=
  if c ∈ s.clients then some ⟨s.clients.erase c, s.lastAccepted⟩ else none

/-- The `except` branch of `run()` after handling connection `sock` raised:
the source logs and then calls `self.handle_quit(client)` — the `client`
LOCAL VARIABLE, i.e. the most recently accepted connection — not
`self.clients[sock]`.  `sock` is therefore unused here, exactly as in the
source; `none` models the secondary exception (an unbound `client`, a
`NameError`) escaping `run()` itself. -/
def muxOnException (s : MuxState) (sock : Nat) : Option MuxState :=
  match s.lastAccepted with
  | none => none
  | some c => muxQuit s c

-- HELPER LEMMAS (association lists)

@[simp]
theorem alookup_aset_self {α β : Type} [DecidableEq α] (t : List (α × β)) (a : α) (b : β) :
    alookup (aset t a b) a = some b := by
  induction t with
  | nil => simp [aset, alookup]
  | cons hd tl ih =>
    obtain ⟨x, y⟩ := hd
    by_cases h : x = a <;> simp [aset, alookup, h, ih]

theorem alookup_aset_ne {α β : Type} [DecidableEq α] (t : List (α × β)) (a c : α) (b : β)
    (h : c ≠ a) : alookup (aset t a b) c = alookup t c := by
  induction t with
  | nil => simp [aset, alookup, Ne.symm h]
  | cons hd tl ih =>
    obtain ⟨x, y⟩ := hd
    by_cases hx : x = a
    · subst hx
      simp [aset, alookup, Ne.symm h]
    · simp [aset, alookup, hx, ih]

theorem mem_map_fst_of_alookup {α β : Type} [DecidableEq α] {t : List (α × β)} {a : α} {b : β}
    (h : alookup t a = some b) : a ∈ t.map Prod.fst := by
  induction t with
  | nil => simp [alookup] at h
  | cons hd tl ih =>
    obtain ⟨x, y⟩ := hd
    by_cases hx : x = a
    · simp [hx]
    · simp [alookup, hx] at h
      simp [ih h]

-- HELPER LEMMAS (pattern search)

theorem restMatch_empty_chunk (s : List Char) : restMatch [[]] s = true := by
  simp [restMatch, restMatchF, List.isPrefixOf]

theorem reSearch_star (s : List Char) : reSearch [[], []] s = true := by
  cases s with
  | nil => simp [reSearch, matchAt, restMatch_empty_chunk]
  | cons c t => simp [reSearch, matchAt, restMatch_empty_chunk]

theorem reSearch_a_star (l : List Char) : reSearch [['a'], []] l = l.contains 'a' := by
  induction l with
  | nil => simp [reSearch, matchAt, List.isPrefixOf]
  | cons c t ih =>
    by_cases hc : 'a' = c
    · subst hc
      simp [reSearch, matchAt, restMatch_empty_chunk, List.isPrefixOf, ih]
    · simp [reSearch, matchAt, restMatch_empty_chunk, List.isPrefixOf, ih, hc]

theorem alookup_aset_ne_none {α β : Type} [DecidableEq α] (t : List (α × β)) (a c : α) (b : β)
    (h : alookup t c ≠ none) : alookup (aset t a b) c ≠ none := by
  by_cases hc : c = a
  · subst hc
    simp [alookup_aset_self]
  · rw [alookup_aset_ne t a c b hc]
    exact h

theorem alookup_selectTables_ne (ts : Tables) (db m : Nat) (h : m ≠ db) :
    alookup (selectTables ts db) m = alookup ts m := by
  cases halookup : alookup ts db with
  | some t => simp [selectTables, halookup]
  | none => simp [selectTables, halookup, alookup_aset_ne ts db m [] h]

-- CLAIM THEOREMS

/-- C3 (code_bug evidence): `DECRBY` and `DECR` never complete.
`handle_decrby`'s body applies unary minus to its argument (a `TypeError` on
the raw byte string the dispatcher passes) and then forwards to
`handle_incrby` with an extra `self` argument (a `TypeError` even when the
argument was an int, as in `handle_decr`'s forwarding); so every invocation
raises instead of returning the integer the claim describes. -/
theorem decrby_always_raises :
    (∀ (t : Table) (key : String) (byArg : PyVal), handle_decrby t key byArg = none) ∧
    (∀ (t : Table) (key : String), handle_decr t key = none) := by
  constructor
  · intro t key byArg
    cases byArg <;> simp [handle_decrby, pyNeg, callHandle_incrby]
  · intro t key
    simp [handle_decr, callHandle_decrby, handle_decrby, pyNeg, callHandle_incrby]

/-- C4 (code_bug evidence): after connections 1 and 2 are accepted in that
order, an exception while handling connection 1's request makes `run()`'s
except branch quit `client` — the most recently accepted connection 2 — so
the live set ends as `[1]`: the erroring connection 1 is still registered
and the innocent connection 2 has been shut down, contrary to the claim. -/
theorem run_exception_quits_wrong_client :
    muxOnException (muxAccept (muxAccept ⟨[], none⟩ 1) 2) 1 = some ⟨[1], some 2⟩ := by
  decide

/-- C5: `GET` on a key holding a list value returns the type-error result,
and `LPUSH`/`RPUSH` on a key holding a string value return the type-error
result; in each case the table is returned exactly unchanged. -/
theorem wrong_type_ops_error_without_mutation (t : Table) (k : String) :
    (∀ l, alookup t k = some (.VList l) → handle_get t k = (.err badValue, t)) ∧
    (∀ s v, alookup t k = some (.VStr s) →
      handle_lpush t k v = (.err badValue, t) ∧ handle_rpush t k v = (.err badValue, t)) := by
  constructor
  · intro l hl
    simp [handle_get, hl]
  · intro s v hs
    constructor <;> simp [handle_lpush, handle_rpush, hs]

/-- Witness for C5 at concrete tables: a list-valued key rejected by `GET`,
and a string-valued key rejected by `LPUSH` and `RPUSH`. -/
theorem wrong_type_ops_error_without_mutation_witness :
    handle_get [("k", RValue.VList ["a"])] "k"
      = (.err badValue, [("k", RValue.VList ["a"])]) ∧
    handle_lpush [("k", RValue.VStr "s")] "k" "v"
      = (.err badValue, [("k", RValue.VStr "s")]) ∧
    handle_rpush [("k", RValue.VStr "s")] "k" "v"
      = (.err badValue, [("k", RValue.VStr "s")]) :=
  ⟨(wrong_type_ops_error_without_mutation _ "k").1 ["a"] (by decide),
   ((wrong_type_ops_error_without_mutation _ "k").2 "s" "v" (by decide)).1,
   ((wrong_type_ops_error_without_mutation _ "k").2 "s" "v" (by decide)).2⟩

/-- C6: for every table, key and value, `SET k v` followed by `GET k`
returns exactly `v` as a bulk string, with the keyspace as `SET` left it. -/
theorem set_get_roundtrip (t : Table) (k v : String) :
    handle_get (handle_set t k v).2 k = (.bulk v, (handle_set t k v).2) := by
  simp [handle_get, handle_set, alookup_aset_self]

/-- C9: the reply encoder maps boolean true to `+OK\r\n`, boolean false to
no bytes, `EmptyScalar` to `$-1\r\n`, `EmptyList` to `*-1\r\n`, an integer
`n` to `:<n>\r\n`, and a byte string `s` to `$<len(s)>\r\n<s>\r\n`. -/
theorem dump_encoding_table :
    dump (.bool true) = "+OK\r\n" ∧
    dump (.bool false) = "" ∧
    dump .emptyScalar = "$-1\r\n" ∧
    dump .emptyList = "*-1\r\n" ∧
    (∀ n : Int, dump (.int n) = ":" ++ toString n ++ "\r\n") ∧
    (∀ s : String, dump (.bulk s) = "$" ++ toString s.length ++ "\r\n" ++ s ++ "\r\n") :=
  ⟨rfl, rfl, rfl, rfl, fun _ => rfl, fun _ => rfl⟩

/-- C1 (amended): for an integer increment `n` (however the argument was
passed), `INCRBY` never raises and never replies a type error — it always
replies an integer and stores that same integer at the key.  A prior value
parsing as integer `p` yields `p + n`; an absent, non-numeric, or
list-valued prior value is reset to exactly `1` (not to `n` as the claim
states — the two coincide only for `INCR`, where `n = 1`); `GET` then reads
the stored integer back as its decimal string. -/
theorem incrby_swallows_errors_resets_to_one (t : Table) (key : String) (byArg : PyVal)
    (n : Int) (hn : pyIntOfArg byArg = some n) :
    (alookup t key = none →
      handle_incrby t key byArg = (.int 1, aset t key (.VInt 1))) ∧
    (∀ l, alookup t key = some (.VList l) →
      handle_incrby t key byArg = (.int 1, aset t key (.VInt 1))) ∧
    (∀ s, alookup t key = some (.VStr s) → parsePyInt s = none →
      handle_incrby t key byArg = (.int 1, aset t key (.VInt 1))) ∧
    (∀ s p, alookup t key = some (.VStr s) → parsePyInt s = some p →
      handle_incrby t key byArg = (.int (p + n), aset t key (.VInt (p + n)))) ∧
    (∀ p, alookup t key = some (.VInt p) →
      handle_incrby t key byArg = (.int (p + n), aset t key (.VInt (p + n)))) ∧
    (∀ (t' : Table) (key' : String) (byArg' : PyVal),
      isIntReply (handle_incrby t' key' byArg').1 = true) ∧
    (∀ m : Int, (handle_get (aset t key (.VInt m)) key).1 = .bulk (toString m)) := by
  refine ⟨?_, ?_, ?_, ?_, ?_, ?_, ?_⟩
  · intro h1
    simp [handle_incrby, h1]
  · intro l h1
    simp [handle_incrby, h1, pyIntOfValue]
  · intro s h1 h2
    simp [handle_incrby, h1, pyIntOfValue, h2]
  · intro s p h1 h2
    simp [handle_incrby, h1, pyIntOfValue, h2, hn]
  · intro p h1
    simp [handle_incrby, h1, pyIntOfValue, hn]
  · intro t' key' byArg'
    cases h1 : (alookup t' key').bind pyIntOfValue with
    | none => simp [handle_incrby, h1, isIntReply]
    | some p =>
      cases h2 : pyIntOfArg byArg' with
      | none => simp [handle_incrby, h1, h2, isIntReply]
      | some n2 => simp [handle_incrby, h1, h2, isIntReply]
  · intro m
    simp [handle_get, alookup_aset_self]

/-- Witness for C1 at a concrete input: `INCRBY k 7` on an empty database
stores and replies the integer 1. -/
theorem incrby_swallows_errors_resets_to_one_witness :
    handle_incrby [] "k" (PyVal.vstr "7") = (.int 1, aset [] "k" (RValue.VInt 1)) :=
  (incrby_swallows_errors_resets_to_one [] "k" (PyVal.vstr "7") 7 (by decide)).1 (by decide)

/-- C1 counterexample: on an absent key, `INCRBY k 5` stores and replies the
integer 1, not 5, whereas the claim says the stored value and the reply
become exactly the increment amount. -/
theorem incrby_absent_key_returns_one_not_n :
    handle_incrby [] "k" (PyVal.vstr "5") = (HResult.int 1, [("k", RValue.VInt 1)]) ∧
    HResult.int 1 ≠ HResult.int 5 := by
  decide

/-- C2 (amended): `handle_keys` turns `*` into `.*` and keeps the keys on
which an unanchored regex search succeeds, so `KEYS "a*"` matches every key
containing an `a` anywhere: on the database {apple, ant, banana} it returns
all three keys — banana included. -/
theorem keys_pattern_unanchored_search :
    (handle_keys [("apple", RValue.VStr "1"), ("ant", RValue.VStr "2"),
        ("banana", RValue.VStr "3")] "a*").1
      = HResult.multi ["apple", "ant", "banana"] ∧
    (∀ k : String, reSearchStr "a*" k = k.toList.contains 'a') := by
  constructor
  · decide
  · intro k
    have hs : splitStar "a*".toList = [['a'], []] := by decide
    show reSearch (splitStar "a*".toList) k.toList = k.toList.contains 'a'
    rw [hs, reSearch_a_star]

/-- C2 counterexample: `KEYS "a*"` on the database {apple, ant, banana}
does return banana, refuting the claim that banana is excluded. -/
theorem keys_a_star_returns_banana :
    "banana" ∈ multiOf (handle_keys [("apple", RValue.VStr "1"), ("ant", RValue.VStr "2"),
        ("banana", RValue.VStr "3")] "a*").1 := by
  decide

/-- C7: from an absent key, `LPUSH v1` then `LPUSH v2` then `LRANGE 0 -1`
replies `[v2, v1]` (newest at the head); on any key holding a list,
`LRANGE 0 -1` replies the whole stored list in order, and arbitrary integer
bounds always reply a clamped contiguous subsequence of the stored list —
never an error — leaving the table unchanged. -/
theorem lrange_clamps_and_lifo (t : Table) (k : String) :
    (∀ v1 v2, alookup t k = none →
      handle_lrange (handle_lpush (handle_lpush t k v1).2 k v2).2 k 0 (-1)
        = (.multi [v2, v1], (handle_lpush (handle_lpush t k v1).2 k v2).2)) ∧
    (∀ l, alookup t k = some (.VList l) →
      handle_lrange t k 0 (-1) = (.multi l, t) ∧
      (∀ low high : Int, ∃ r : List String,
        handle_lrange t k low high = (.multi r, t) ∧ r.Sublist l)) := by
  constructor
  · intro v1 v2 h
    simp [handle_lpush, h, alookup_aset_self, handle_lrange, pySlice, pySliceIndex]
  · intro l hl
    constructor
    · simp [handle_lrange, hl, pySlice, pySliceIndex]
    · intro low high
      by_cases hc : low = 0 ∧ high = -1
      · obtain ⟨h0, hm1⟩ := hc
        subst h0
        subst hm1
        refine ⟨l, ?_, List.Sublist.refl l⟩
        simp [handle_lrange, hl, pySlice, pySliceIndex]
      · refine ⟨pySlice l low (some high), ?_, ?_⟩
        · simp [handle_lrange, hl, hc]
        · have hps : pySlice l low (some high)
              = (l.take (pySliceIndex l.length high)).drop (pySliceIndex l.length low) := rfl
          rw [hps]
          exact (List.drop_sublist _ _).trans (List.take_sublist _ _)

/-- Witness for C7 at concrete inputs: two pushes then a full-range read on
an empty database, and a full-range read of a stored one-element list. -/
theorem lrange_clamps_and_lifo_witness :
    handle_lrange (handle_lpush (handle_lpush [] "k" "a").2 "k" "b").2 "k" 0 (-1)
      = (.multi ["b", "a"], (handle_lpush (handle_lpush [] "k" "a").2 "k" "b").2) ∧
    handle_lrange [("k", RValue.VList ["x"])] "k" 0 (-1)
      = (.multi ["x"], [("k", RValue.VList ["x"])]) :=
  ⟨(lrange_clamps_and_lifo [] "k").1 "a" "b" (by decide),
   ((lrange_clamps_and_lifo [("k", RValue.VList ["x"])] "k").2 ["x"] (by decide)).1⟩

/-- C8 (amended): provided database 0 does not already bind key `a`, the
sequence `SELECT 1; SET a 1; SELECT 0; GET a` replies EmptyScalar (the claim
as stated omits that precondition); and in general a write performed in
database `n` leaves every other database number `m` untouched. -/
theorem select_isolation_requires_absent_key (ts : Tables) (cur : Nat)
    (h : ∀ t0, alookup ts 0 = some t0 → alookup t0 "a" = none) :
    (sysGet (sysSelect (sysSet (sysSelect ⟨ts, cur⟩ 1) "a" "1").2 0) "a").1 = .emptyScalar ∧
    (∀ (n : Nat) (k v : String) (m : Nat), m ≠ n →
      alookup (sysSet (sysSelect ⟨ts, cur⟩ n) k v).2.tables m = alookup ts m) := by
  constructor
  · have hts2 : alookup (sysSet (sysSelect ⟨ts, cur⟩ 1) "a" "1").2.tables 0 = alookup ts 0 := by
      show alookup (aset (selectTables ts 1) 1 _) 0 = alookup ts 0
      rw [alookup_aset_ne _ _ _ _ (by decide), alookup_selectTables_ne ts 1 0 (by decide)]
    show (handle_get ((alookup
        (selectTables (sysSet (sysSelect ⟨ts, cur⟩ 1) "a" "1").2.tables 0) 0).getD []) "a").1
      = HResult.emptyScalar
    generalize hg : (sysSet (sysSelect ⟨ts, cur⟩ 1) "a" "1").2.tables = ts2 at hts2 ⊢
    cases h0 : alookup ts 0 with
    | none =>
      rw [h0] at hts2
      simp [selectTables, hts2, alookup_aset_self, handle_get, alookup]
    | some t0 =>
      rw [h0] at hts2
      simp [selectTables, hts2, handle_get, h t0 h0]
  · intro n k v m hm
    show alookup (aset (selectTables ts n) n _) m = alookup ts m
    rw [alookup_aset_ne _ _ _ _ hm, alookup_selectTables_ne ts n m hm]

/-- Witness for C8 on an empty keyspace: the sequence replies EmptyScalar. -/
theorem select_isolation_requires_absent_key_witness :
    (sysGet (sysSelect (sysSet (sysSelect ⟨[], 0⟩ 1) "a" "1").2 0) "a").1
      = HResult.emptyScalar :=
  (select_isolation_requires_absent_key [] 0 (by intro t0 ht; simp [alookup] at ht)).1

/-- C8 counterexample: if database 0 already binds `a` (here to "x"), the
sequence `SELECT 1; SET a 1; SELECT 0; GET a` replies that pre-existing
value, not EmptyScalar, so the claim is false over every keyspace state. -/
theorem select_isolation_counterexample :
    (sysGet (sysSelect (sysSet (sysSelect ⟨[(0, [("a", RValue.VStr "x")])], 0⟩ 1)
        "a" "1").2 0) "a").1 = HResult.bulk "x" ∧
    HResult.bulk "x" ≠ HResult.emptyScalar := by
  decide

/-- C10: popping can never unbind a key (for any table and key, every key
present before an LPOP/RPOP is present after); and on a key holding the
one-element list `[v]`, LPOP and RPOP both reply `v` and leave the key
bound to the empty list, after which LPOP and RPOP reply EmptyScalar, LLEN
replies 0, the key still appears in `KEYS *`, and every other key's binding
is exactly unchanged. -/
theorem pop_never_removes_key (t : Table) (k v : String)
    (h : alookup t k = some (.VList [v])) :
    handle_lpop t k = (.bulk v, aset t k (.VList [])) ∧
    handle_rpop t k = (.bulk v, aset t k (.VList [])) ∧
    alookup (aset t k (RValue.VList [])) k = some (.VList []) ∧
    handle_lpop (aset t k (.VList [])) k = (.emptyScalar, aset t k (.VList [])) ∧
    handle_rpop (aset t k (.VList [])) k = (.emptyScalar, aset t k (.VList [])) ∧
    handle_llen (aset t k (.VList [])) k = (.int 0, aset t k (.VList [])) ∧
    k ∈ multiOf (handle_keys (aset t k (.VList [])) "*").1 ∧
    (∀ k', k' ≠ k → alookup (aset t k (.VList [])) k' = alookup t k') ∧
    (∀ (t' : Table) (k0 k1 : String), alookup t' k1 ≠ none →
      alookup (handle_lpop t' k0).2 k1 ≠ none ∧ alookup (handle_rpop t' k0).2 k1 ≠ none) := by
  refine ⟨?_, ?_, ?_, ?_, ?_, ?_, ?_, ?_, ?_⟩
  · simp [handle_lpop, h]
  · simp [handle_rpop, h]
  · exact alookup_aset_self t k _
  · simp [handle_lpop, alookup_aset_self]
  · simp [handle_rpop, alookup_aset_self]
  · simp [handle_llen, alookup_aset_self]
  · have hstar : reSearchStr "*" k = true := by
      have hs : splitStar "*".toList = [[], []] := by decide
      show reSearch (splitStar "*".toList) k.toList = true
      rw [hs]
      exact reSearch_star _
    simp only [handle_keys, multiOf]
    exact List.mem_filter.mpr
      ⟨mem_map_fst_of_alookup (alookup_aset_self t k (RValue.VList [])), hstar⟩
  · intro k' hk'
    exact alookup_aset_ne t k k' _ hk'
  · intro t' k0 k1 h1
    constructor
    · cases hl : alookup t' k0 with
      | none => simpa [handle_lpop, hl] using h1
      | some val =>
        cases val with
        | VStr s => simpa [handle_lpop, hl] using h1
        | VInt n2 => simpa [handle_lpop, hl] using h1
        | VList l =>
          cases l with
          | nil => simpa [handle_lpop, hl] using h1
          | cons x xs =>
            simp only [handle_lpop, hl]
            exact alookup_aset_ne_none t' k0 k1 _ h1
    · cases hl : alookup t' k0 with
      | none => simpa [handle_rpop, hl] using h1
      | some val =>
        cases val with
        | VStr s => simpa [handle_rpop, hl] using h1
        | VInt n2 => simpa [handle_rpop, hl] using h1
        | VList l =>
          cases l with
          | nil => simpa [handle_rpop, hl] using h1
          | cons x xs =>
            simp only [handle_rpop, hl]
            exact alookup_aset_ne_none t' k0 k1 _ h1

/-- Witness for C10 at a concrete table: LPOP on a one-element list replies
the element and leaves the key bound to the empty list. -/
theorem pop_never_removes_key_witness :
    handle_lpop [("k", RValue.VList ["v"])] "k"
      = (.bulk "v", aset [("k", RValue.VList ["v"])] "k" (RValue.VList [])) :=
  (pop_never_removes_key [("k", RValue.VList ["v"])] "k" "v" (by decide)).1
